import Mathlib

/-!
Shallow embedding of the KanMind kanban backend (Django/DRF) core:
`kanban_app/models.py`, `kanban_app/api/serializers.py`,
`kanban_app/api/permissions.py`, `kanban_app/api/views.py`.

Users are identified by their database ids (`Nat`); Django's auto primary
keys start at 1, so initial states never contain a user id 0 (this matters
because the Python code tests ids for truthiness, and `0` is falsy).
Timestamps (`created_at`) and authentication plumbing are omitted: no claim
mentions them.  Route parameters (`pk`, `task_pk`) are URL strings in
Django and hence always truthy; JSON payload values keep Python int
truthiness (0 is falsy).
-/

namespace KanMind

/-- `Board` model (`models.py`): title, owner FK, members m2m. -/
structure Board where
  id : Nat
  title : String
  ownerId : Nat
  memberIds : List Nat
deriving Repr, DecidableEq

/-- `Task` model (`models.py`): status/priority stored as plain strings
(`CharField` with `choices`; the DB never enforces the choices). -/
structure Task where
  id : Nat
  boardId : Nat
  title : String
  description : String
  status : String
  priority : String
  assigneeId : Option Nat
  reviewerId : Option Nat
  dueDate : Option String
  createdById : Nat
deriving Repr, DecidableEq

/-- `Comment` model (`models.py`). -/
structure Comment where
  id : Nat
  taskId : Nat
  authorId : Nat
  content : String
deriving Repr, DecidableEq

/-- The entity store: the users table (ids only; user rows are managed by
the external auth app) plus the three kanban tables. -/
structure State where
  users : List Nat
  boards : List Board
  tasks : List Task
  comments : List Comment
deriving Repr, DecidableEq

/-- Outcomes surfaced to the caller (§7 of the spec): 404, 403, 400 with a
message, 400 naming blocked user ids, and a database integrity error. -/
inductive Err where
  | notFound (msg : String)
  | forbidden
  | validation (msg : String)
  | validationBlocked (blocked : List Nat)
  | dbError
deriving Repr, DecidableEq

/-- `Board.objects.get(id=bid)` / `get_object_or_404(Board, ...)`. -/
def State.findBoard (st : State) (bid : Nat) : Option Board :=
  st.boards.find? (fun b => b.id == bid)

/-- `Task.objects.get(id=tid)` / `get_object_or_404(Task, ...)`. -/
def State.findTask (st : State) (tid : Nat) : Option Task :=
  st.tasks.find? (fun t => t.id == tid)

/-- `get_object_or_404(Comment, id=comment_id, task_id=task_id)`
(`TaskCommentViewSet.get_object`). -/
def State.findCommentPair (st : State) (taskPk commentPk : Nat) : Option Comment :=
  st.comments.find? (fun c => c.id == commentPk && c.taskId == taskPk)

/-- Python `x in removed_ids` for an optional FK column: `None` is never a
member of a set of ints. -/
def optMem (o : Option Nat) (l : List Nat) : Prop :=
  match o with
  | none => False
  | some a => a ∈ l

instance (o : Option Nat) (l : List Nat) : Decidable (optMem o l) :=
  match o with
  | none => isFalse (fun h => h)
  | some a => inferInstanceAs (Decidable (a ∈ l))

/-- Python truthiness of an optional integer id: `if assignee_id:` treats
both `None` and `0` as absent. -/
def pyTruthy (o : Option Nat) : Option Nat :=
  match o with
  | none => none
  | some a => if a = 0 then none else some a

/-- `TaskSerializer.validate`: `if assignee_id and not
board.members.filter(id=assignee_id).exists()`. -/
def memberCheckFails (board : Board) (o : Option Nat) : Prop :=
  match pyTruthy o with
  | none => False
  | some a => a ∉ board.memberIds

instance (board : Board) (o : Option Nat) : Decidable (memberCheckFails board o) := by
  unfold memberCheckFails
  exact match pyTruthy o with
  | none => isFalse (fun h => h)
  | some a => inferInstanceAs (Decidable (a ∉ board.memberIds))

/-- Database foreign-key constraint on an optional user FK column: a set
value must reference an existing user row, else `save()` raises. -/
def fkOk (users : List Nat) (o : Option Nat) : Prop :=
  match o with
  | none => True
  | some a => a ∈ users

instance (users : List Nat) (o : Option Nat) : Decidable (fkOk users o) :=
  match o with
  | none => isTrue trivial
  | some a => inferInstanceAs (Decidable (a ∈ users))

/-- `Task.STATUS_CHOICES` of `models.py`. -/
def STATUS_CHOICES : List String := ["to-do", "in-progress", "review", "done"]

/-- `Task.PRIORITY_CHOICES` of `models.py`. -/
def PRIORITY_CHOICES : List String := ["low", "medium", "high"]

/-- DRF `ChoiceField` validation generated from the model `choices`: a
supplied value must be one of the choices; an absent field is fine. -/
def choiceOk (choices : List String) (o : Option String) : Prop :=
  match o with
  | none => True
  | some s => s ∈ choices

instance (choices : List String) (o : Option String) : Decidable (choiceOk choices o) :=
  match o with
  | none => isTrue trivial
  | some s => inferInstanceAs (Decidable (s ∈ choices))

/-- `len(User.objects.filter(id__in=ids)) == len(set(ids))` — the
existence check used by `BoardSerializer.validate` and
`BoardUpdateSerializer.validate_members`. -/
def usersCheck (users : List Nat) (ids : List Nat) : Prop :=
  (users.filter (fun u => u ∈ ids)).length = ids.dedup.length

instance (users ids : List Nat) : Decidable (usersCheck users ids) :=
  inferInstanceAs (Decidable (_ = _))

/-- `BoardUpdateSerializer.validate_members` lines 186-188: re-append the
owner when dropped (`if owner_id and owner_id not in value`). -/
def mkValue (board : Board) (ms : List Nat) : List Nat :=
  if board.ownerId ≠ 0 ∧ board.ownerId ∉ ms then ms ++ [board.ownerId] else ms

/-- `removed_ids = current_member_ids - new_members_ids`. -/
def removedOf (board : Board) (ms : List Nat) : List Nat :=
  board.memberIds.filter (fun u => u ∉ mkValue board ms)

/-- The `blocked_users` accumulation loop of
`BoardUpdateSerializer.validate_members` lines 200-206: for every task of
the board whose assignee or reviewer is being removed, both its assignee
id and reviewer id are collected; `None` is discarded at the end.  The
Python `set` is modelled as a deduplicated list (all uses are
membership/emptiness tests). -/
def blockedUsers (tasks : List Task) (removed : List Nat) : List Nat :=
  ((tasks.flatMap fun t =>
      if optMem t.assigneeId removed ∨ optMem t.reviewerId removed then
        [t.assigneeId, t.reviewerId]
      else
        []).filterMap id).dedup

/-- `BoardSerializer.validate` + `BoardSerializer.create`
(`BoardViewSet.create`; any authenticated user may create a board).
`newId` is the fresh primary key assigned by the database. -/
def boardCreate (st : State) (actor : Nat) (title : String) (membersIds : List Nat)
    (newId : Nat) : Except Err (State × Board) :=
  if ¬ usersCheck st.users membersIds then
    .error (.validation "Ein oder mehrere Benutzer existieren nicht")
  else
    let membersIds2 := if actor ∈ membersIds then membersIds else membersIds ++ [actor]
    let memberUsers := st.users.filter (fun u => u ∈ membersIds2)
    let board : Board := { id := newId, title := title, ownerId := actor, memberIds := memberUsers }
    .ok ({ st with boards := st.boards ++ [board] }, board)

/-- `BoardViewSet.partial_update` / `update`: object lookup, then
`IsBoardMemberOrOwner.has_object_permission` (owner or member), then
`BoardUpdateSerializer.validate_members` (when `members` is supplied) and
`BoardUpdateSerializer.update`. -/
def boardUpdate (st : State) (actor : Nat) (bid : Nat) (newTitle : Option String)
    (membersIds : Option (List Nat)) : Except Err State :=
  match st.findBoard bid with
  | none => .error (.notFound "No Board matches the given query.")
  | some board =>
    if board.ownerId = actor ∨ actor ∈ board.memberIds then
      match membersIds with
      | none =>
        .ok { st with boards := st.boards.map fun b =>
                if b.id == bid then { b with title := newTitle.getD b.title } else b }
      | some ms =>
        if ¬ usersCheck st.users (mkValue board ms) then
          .error (.validation "Ein oder mehrere Benutzer Ids sind ungültig")
        else
          if blockedUsers (st.tasks.filter fun t => t.boardId == board.id)
              (removedOf board ms) ≠ [] then
            .error (.validationBlocked
              (blockedUsers (st.tasks.filter fun t => t.boardId == board.id)
                (removedOf board ms)))
          else
            .ok { st with boards := st.boards.map fun b =>
                    if b.id == bid then
                      { b with
                        title := newTitle.getD b.title,
                        memberIds := st.users.filter (fun u => u ∈ mkValue board ms) }
                    else b }
    else .error .forbidden

/-- `BoardViewSet.destroy`: owner only; deleting a board cascades its
tasks and, transitively, their comments (`on_delete=CASCADE`). -/
def boardDelete (st : State) (actor : Nat) (bid : Nat) : Except Err State :=
  match st.findBoard bid with
  | none => .error (.notFound "No Board matches the given query.")
  | some board =>
    if board.ownerId = actor then
      let deadTasks := st.tasks.filter (fun t => t.boardId == bid)
      .ok { st with
        boards := st.boards.filter (fun b => b.id != bid),
        tasks := st.tasks.filter (fun t => t.boardId != bid),
        comments := st.comments.filter (fun c => deadTasks.all fun t => t.id != c.taskId) }
    else .error .forbidden

/-- `TaskViewSet.create`: `IsTaskBoardMemberOrOwner.has_permission` (POST
branch — the board id is read from the request payload; a falsy or absent
one falls back to the `task_pk` route kwarg, which this viewset does not
have, yielding a plain denial), then `TaskSerializer` field validation,
`TaskSerializer.validate`, and `TaskSerializer.create` (`status` defaults
to the model default `'todo'`, `priority` to `'medium'`). -/
def taskCreate (st : State) (actor : Nat) (boardField : Option Nat)
    (title description : String) (status priority : Option String)
    (assigneeId reviewerId : Option Nat) (dueDate : Option String)
    (newId : Nat) : Except Err (State × Task) :=
  match pyTruthy boardField with
  | none => .error .forbidden
  | some bid =>
    match st.findBoard bid with
    | none => .error (.notFound "Board not found.")
    | some board =>
      if board.ownerId = actor ∨ actor ∈ board.memberIds then
        if ¬ choiceOk STATUS_CHOICES status then
          .error (.validation "status is not a valid choice")
        else if ¬ choiceOk PRIORITY_CHOICES priority then
          .error (.validation "priority is not a valid choice")
        else if actor ∉ board.memberIds then
          .error (.validation "Not a member of the board")
        else if memberCheckFails board assigneeId then
          .error (.validation "Assignee is not a member of the board")
        else if memberCheckFails board reviewerId then
          .error (.validation "Reviewer is not a member of the board")
        else
          let task : Task :=
            { id := newId, boardId := board.id, title := title, description := description,
              status := status.getD "todo", priority := priority.getD "medium",
              assigneeId := pyTruthy assigneeId, reviewerId := pyTruthy reviewerId,
              dueDate := dueDate, createdById := actor }
          .ok ({ st with tasks := st.tasks ++ [task] }, task)
      else .error .forbidden

/-- A PATCH payload for a task.  An outer `none` means the field is absent
from the payload; `assigneeId = some none` is an explicit JSON `null`. -/
structure TaskPatch where
  board : Option Nat := none
  title : Option String := none
  description : Option String := none
  status : Option String := none
  priority : Option String := none
  assigneeId : Option (Option Nat) := none
  reviewerId : Option (Option Nat) := none
  dueDate : Option (Option String) := none
deriving Repr, DecidableEq

/-- `TaskViewSet.partial_update`: `IsTaskBoardMemberOrOwner.has_permission`
(task lookup by `pk`, owner-or-member), object permission (same condition
for non-DELETE), DRF field validation (a supplied `board` pk must resolve;
choices), `TaskSerializer.validate` (a present `board` key is rejected;
requester and any truthy assignee/reviewer must be members), then the
default `ModelSerializer.update` (`setattr` + `save()`, where `save`
enforces the user foreign keys). -/
def taskUpdate (st : State) (actor : Nat) (pk : Nat) (patch : TaskPatch) :
    Except Err (State × Task) :=
  match st.findTask pk with
  | none => .error (.notFound "Task not found.")
  | some task =>
    match st.findBoard task.boardId with
    | none => .error .dbError
    | some board =>
      if board.ownerId = actor ∨ actor ∈ board.memberIds then
        match patch.board with
        | some b2 =>
          if (st.findBoard b2).isNone then
            .error (.validation "Invalid pk - object does not exist.")
          else
            .error (.validation "Changing board is not allowed")
        | none =>
          if ¬ choiceOk STATUS_CHOICES patch.status then
            .error (.validation "status is not a valid choice")
          else if ¬ choiceOk PRIORITY_CHOICES patch.priority then
            .error (.validation "priority is not a valid choice")
          else if actor ∉ board.memberIds then
            .error (.validation "Not a member of the board")
          else if memberCheckFails board (patch.assigneeId.getD none) then
            .error (.validation "Assignee is not a member of the board")
          else if memberCheckFails board (patch.reviewerId.getD none) then
            .error (.validation "Reviewer is not a member of the board")
          else
            if fkOk st.users (patch.assigneeId.getD task.assigneeId) ∧
                fkOk st.users (patch.reviewerId.getD task.reviewerId) then
              let task' : Task := { task with
                title := patch.title.getD task.title,
                description := patch.description.getD task.description,
                status := patch.status.getD task.status,
                priority := patch.priority.getD task.priority,
                assigneeId := patch.assigneeId.getD task.assigneeId,
                reviewerId := patch.reviewerId.getD task.reviewerId,
                dueDate := patch.dueDate.getD task.dueDate }
              .ok ({ st with tasks := st.tasks.map fun t => if t.id == pk then task' else t },
                   task')
            else .error .dbError
      else .error .forbidden

/-- `TaskViewSet.destroy`: `IsTaskBoardMemberOrOwner.has_permission`
(DELETE is not POST: task lookup by `pk`, owner-or-member), then
`has_object_permission` for DELETE (board owner or task creator), then
deletion with comment cascade. -/
def taskDelete (st : State) (actor : Nat) (tid : Nat) : Except Err State :=
  match st.findTask tid with
  | none => .error (.notFound "Task not found.")
  | some task =>
    match st.findBoard task.boardId with
    | none => .error .dbError
    | some board =>
      if board.ownerId = actor ∨ actor ∈ board.memberIds then
        if board.ownerId = actor ∨ task.createdById = actor then
          .ok { st with
            tasks := st.tasks.filter (fun t => t.id != tid),
            comments := st.comments.filter (fun c => c.taskId != tid) }
        else .error .forbidden
      else .error .forbidden

/-- The board a permission check resolves for a comment task route:
`task = Task.objects.get(id=task_pk); board = task.board`. -/
def taskBoardOf (st : State) (taskPk : Nat) : Except Err Board :=
  match st.findTask taskPk with
  | none => .error (.notFound "Task not found.")
  | some t =>
    match st.findBoard t.boardId with
    | none => .error .dbError
    | some b => .ok b

/-- `TaskCommentViewSet.create`: permission is
`IsTaskBoardMemberOrOwner.has_permission` (POST branch), which reads
`request.data.get('board')` first — when the comment payload carries a
truthy `board` value, membership is checked against *that* board, not the
task's; only otherwise does it fall back to the `task_pk` route kwarg.
Then `perform_create` resolves the task (404 if absent) and stores the
comment with the acting user as author. -/
def commentCreate (st : State) (actor : Nat) (taskPk : Nat) (payloadBoard : Option Nat)
    (content : String) (newId : Nat) : Except Err (State × Comment) :=
  let boardRes : Except Err Board :=
    match pyTruthy payloadBoard with
    | some bid =>
      match st.findBoard bid with
      | none => .error (.notFound "Board not found.")
      | some b => .ok b
    | none => taskBoardOf st taskPk
  match boardRes with
  | .error e => .error e
  | .ok board =>
    if board.ownerId = actor ∨ actor ∈ board.memberIds then
      match st.findTask taskPk with
      | none => .error (.notFound "No Task matches the given query.")
      | some task =>
        let c : Comment := { id := newId, taskId := task.id, authorId := actor, content := content }
        .ok ({ st with comments := st.comments ++ [c] }, c)
    else .error .forbidden

/-- `TaskCommentViewSet.destroy`: permission is `IsCommentAuthor`, whose
request-level check always passes; the object is resolved by the
(comment id, task id) pair, then only the author may delete. -/
def commentDelete (st : State) (actor : Nat) (taskPk commentPk : Nat) : Except Err State :=
  match st.findCommentPair taskPk commentPk with
  | none => .error (.notFound "No Comment matches the given query.")
  | some c =>
    if c.authorId = actor then
      .ok { st with comments := st.comments.filter (fun x => x.id != commentPk) }
    else .error .forbidden

/-- `TaskCommentViewSet.retrieve`: permission is
`IsTaskBoardMemberOrOwner.has_permission` with
`task_id = view.kwargs.get('pk') or view.kwargs.get('task_pk')` — route
kwargs are nonempty URL strings, hence truthy, so the *comment* pk is used
as a task id.  Only after that check does `get_object` resolve the
(comment id, task id) pair. -/
def commentRetrieve (st : State) (actor : Nat) (taskPk commentPk : Nat) : Except Err Comment :=
  match st.findTask commentPk with
  | none => .error (.notFound "Task not found.")
  | some t =>
    match st.findBoard t.boardId with
    | none => .error .dbError
    | some board =>
      if board.ownerId = actor ∨ actor ∈ board.memberIds then
        match st.findCommentPair taskPk commentPk with
        | none => .error (.notFound "No Comment matches the given query.")
        | some c => .ok c
      else .error .forbidden

/-- One successful state-changing service operation.  The actor is the
authenticated request user, hence an existing user row; fresh primary keys
are assigned by the database and never collide with existing rows. -/
inductive Step : State → State → Prop where
  | stepBoardCreate (st st' : State) (actor : Nat) (title : String) (ms : List Nat)
      (newId : Nat) (b : Board) :
      actor ∈ st.users → newId ∉ st.boards.map Board.id →
      boardCreate st actor title ms newId = .ok (st', b) → Step st st'
  | stepBoardUpdate (st st' : State) (actor bid : Nat) (newTitle : Option String)
      (ms : Option (List Nat)) :
      actor ∈ st.users → boardUpdate st actor bid newTitle ms = .ok st' → Step st st'
  | stepBoardDelete (st st' : State) (actor bid : Nat) :
      actor ∈ st.users → boardDelete st actor bid = .ok st' → Step st st'
  | stepTaskCreate (st st' : State) (actor : Nat) (boardField : Option Nat)
      (title description : String) (status priority : Option String)
      (assigneeId reviewerId : Option Nat) (dueDate : Option String) (newId : Nat) (t : Task) :
      actor ∈ st.users → newId ∉ st.tasks.map Task.id →
      taskCreate st actor boardField title description status priority
        assigneeId reviewerId dueDate newId = .ok (st', t) → Step st st'
  | stepTaskUpdate (st st' : State) (actor pk : Nat) (patch : TaskPatch) (t : Task) :
      actor ∈ st.users → taskUpdate st actor pk patch = .ok (st', t) → Step st st'
  | stepTaskDelete (st st' : State) (actor tid : Nat) :
      actor ∈ st.users → taskDelete st actor tid = .ok st' → Step st st'
  | stepCommentCreate (st st' : State) (actor taskPk : Nat) (payloadBoard : Option Nat)
      (content : String) (newId : Nat) (c : Comment) :
      actor ∈ st.users → newId ∉ st.comments.map Comment.id →
      commentCreate st actor taskPk payloadBoard content newId = .ok (st', c) → Step st st'
  | stepCommentDelete (st st' : State) (actor taskPk commentPk : Nat) :
      actor ∈ st.users → commentDelete st actor taskPk commentPk = .ok st' → Step st st'

/-- States reachable through the service operations, starting from a store
holding only user rows (created by the external auth app; Django primary
keys are distinct and start at 1). -/
inductive Reachable : State → Prop where
  | init (users : List Nat) : users.Nodup → 0 ∉ users →
      Reachable { users := users, boards := [], tasks := [], comments := [] }
  | step (st st' : State) : Reachable st → Step st st' → Reachable st'

/-- Well-formedness of a board row: the owner exists, is a member, and all
members exist. -/
def BoardOk (users : List Nat) (b : Board) : Prop :=
  b.ownerId ∈ users ∧ b.ownerId ∈ b.memberIds ∧ ∀ m ∈ b.memberIds, m ∈ users

/-- Well-formedness of a task row: its board resolves and any set assignee
or reviewer is a current member of that board. -/
def TaskOk (boards : List Board) (t : Task) : Prop :=
  ∃ b, boards.find? (fun x => x.id == t.boardId) = some b ∧
    (∀ a, t.assigneeId = some a → a ∈ b.memberIds) ∧
    (∀ r, t.reviewerId = some r → r ∈ b.memberIds)

/-- The store invariant maintained by every service operation. -/
def Inv (st : State) : Prop :=
  st.users.Nodup ∧ 0 ∉ st.users ∧
  (st.boards.map Board.id).Nodup ∧
  (st.tasks.map Task.id).Nodup ∧
  (st.comments.map Comment.id).Nodup ∧
  (∀ b ∈ st.boards, BoardOk st.users b) ∧
  (∀ t ∈ st.tasks, TaskOk st.boards t)

/-! ### Concrete example states, built by replaying service operations -/

/-- Fresh store with two registered users. -/
def exS0 : State := { users := [1, 2], boards := [], tasks := [], comments := [] }

/-- Board 1 as created by user 1 with requested member list `[2]`. -/
def exBoard : Board := { id := 1, title := "Board", ownerId := 1, memberIds := [1, 2] }

def exS1 : State := { users := [1, 2], boards := [exBoard], tasks := [], comments := [] }

/-- Task 1 on board 1, assigned to user 2, created by user 1 without an
explicit status (hence the model default). -/
def exTask : Task :=
  { id := 1, boardId := 1, title := "Task", description := "", status := "todo",
    priority := "medium", assigneeId := some 2, reviewerId := none, dueDate := none,
    createdById := 1 }

def exS2 : State := { users := [1, 2], boards := [exBoard], tasks := [exTask], comments := [] }

/-- Board A: user 1 alone. -/
def exBoardA : Board := { id := 1, title := "A", ownerId := 1, memberIds := [1] }

/-- Board B: user 2 alone. -/
def exBoardB : Board := { id := 2, title := "B", ownerId := 2, memberIds := [2] }

def exTask3 : Task :=
  { id := 1, boardId := 1, title := "T", description := "", status := "todo",
    priority := "medium", assigneeId := none, reviewerId := none, dueDate := none,
    createdById := 1 }

/-- Two disjoint one-person boards, a task on board A. -/
def exSt3 : State :=
  { users := [1, 2], boards := [exBoardA, exBoardB], tasks := [exTask3], comments := [] }

def exBoard4a : Board := { id := 1, title := "B", ownerId := 1, memberIds := [1, 2, 3] }

def exBoard4 : Board := { id := 1, title := "B", ownerId := 1, memberIds := [1, 2] }

/-- A task created by user 3 while they were still a board member. -/
def exTask4 : Task :=
  { id := 1, boardId := 1, title := "T", description := "", status := "todo",
    priority := "medium", assigneeId := none, reviewerId := none, dueDate := none,
    createdById := 3 }

def exS41 : State := { users := [1, 2, 3], boards := [exBoard4a], tasks := [], comments := [] }

def exS42 : State :=
  { users := [1, 2, 3], boards := [exBoard4a], tasks := [exTask4], comments := [] }

/-- User 3 created task 1 on board 1 and was afterwards removed from the
member set (allowed: the task references 3 neither as assignee nor
reviewer). -/
def exSt4 : State :=
  { users := [1, 2, 3], boards := [exBoard4], tasks := [exTask4], comments := [] }

def exBoard7A : Board := { id := 1, title := "A", ownerId := 1, memberIds := [1, 2] }

def exBoard7B : Board := { id := 2, title := "B", ownerId := 2, memberIds := [2] }

def exTask7a : Task :=
  { id := 1, boardId := 1, title := "T1", description := "", status := "todo",
    priority := "medium", assigneeId := none, reviewerId := none, dueDate := none,
    createdById := 1 }

def exTask7b : Task :=
  { id := 3, boardId := 2, title := "T3", description := "", status := "todo",
    priority := "medium", assigneeId := none, reviewerId := none, dueDate := none,
    createdById := 2 }

/-- Comment 3, authored by user 1 on task 1 (board A). -/
def exComment7 : Comment := { id := 3, taskId := 1, authorId := 1, content := "c" }

def exS71 : State := { users := [1, 2], boards := [exBoard7A], tasks := [], comments := [] }

def exS72 : State :=
  { users := [1, 2], boards := [exBoard7A, exBoard7B], tasks := [], comments := [] }

def exS73 : State :=
  { users := [1, 2], boards := [exBoard7A, exBoard7B], tasks := [exTask7a], comments := [] }

def exS74 : State :=
  { users := [1, 2], boards := [exBoard7A, exBoard7B], tasks := [exTask7a, exTask7b],
    comments := [] }

/-- Comment 3 lives on task 1; a task with id 3 exists on board B, where
user 1 is neither owner nor member. -/
def exSt7 : State :=
  { users := [1, 2], boards := [exBoard7A, exBoard7B], tasks := [exTask7a, exTask7b],
    comments := [exComment7] }

/-- The task produced by a create request that omits `status`. -/
def exTask9 : Task :=
  { id := 1, boardId := 1, title := "T", description := "", status := "todo",
    priority := "medium", assigneeId := none, reviewerId := none, dueDate := none,
    createdById := 1 }

/-! ### List helper lemmas -/

theorem find?_append_some {α : Type} {p : α → Bool} {l₁ l₂ : List α} {a : α}
    (h : l₁.find? p = some a) : (l₁ ++ l₂).find? p = some a := by
  rw [List.find?_append, h]
  rfl

theorem find?_map_id_pred (l : List Board) (f : Board → Board) (x : Nat)
    (hf : ∀ b, (f b).id = b.id) :
    (l.map f).find? (fun b => b.id == x) = (l.find? (fun b => b.id == x)).map f := by
  rw [List.find?_map]
  have hpred : ((fun b : Board => b.id == x) ∘ f) = (fun b : Board => b.id == x) := by
    funext b
    simp [Function.comp, hf]
  rw [hpred]

theorem find?_filter_some {α : Type} {p q : α → Bool} {l : List α} {a : α}
    (himp : ∀ x, p x = true → q x = true) (h : l.find? p = some a) :
    (l.filter q).find? p = some a := by
  induction l with
  | nil => simp at h
  | cons x xs ih =>
    by_cases hp : p x = true
    · rw [List.find?_cons_of_pos _ hp] at h
      rw [List.filter_cons_of_pos (himp x hp), List.find?_cons_of_pos _ hp]
      exact h
    · rw [List.find?_cons_of_neg _ (by simpa using hp)] at h
      by_cases hq : q x = true
      · rw [List.filter_cons_of_pos hq, List.find?_cons_of_neg _ (by simpa using hp)]
        exact ih h
      · rw [List.filter_cons_of_neg (by simpa using hq)]
        exact ih h

/-- The `len(User.objects.filter(id__in=ids)) == len(set(ids))` test holds
exactly when every requested id resolves to an existing user. -/
theorem usersCheck_iff {users ids : List Nat} (h : users.Nodup) :
    usersCheck users ids ↔ ∀ x ∈ ids, x ∈ users := by
  unfold usersCheck
  constructor
  · intro hlen x hx
    by_contra hnx
    have h1 : (users.filter (fun u => u ∈ ids)).toFinset.card
        = (users.filter (fun u => u ∈ ids)).length :=
      List.toFinset_card_of_nodup (h.filter _)
    have h2 : ids.dedup.toFinset.card = ids.dedup.length :=
      List.toFinset_card_of_nodup (List.nodup_dedup ids)
    have hsub : (users.filter (fun u => u ∈ ids)).toFinset ⊆ ids.dedup.toFinset := by
      intro y hy
      simp only [List.mem_toFinset, List.mem_filter, decide_eq_true_eq] at hy
      simp only [List.mem_toFinset, List.mem_dedup]
      exact hy.2
    have hmemx : x ∈ ids.dedup.toFinset := by
      simp only [List.mem_toFinset, List.mem_dedup]
      exact hx
    have hnotx : x ∉ (users.filter (fun u => u ∈ ids)).toFinset := by
      simp only [List.mem_toFinset, List.mem_filter, decide_eq_true_eq]
      intro hcontra
      exact hnx hcontra.1
    have hss : (users.filter (fun u => u ∈ ids)).toFinset ⊂ ids.dedup.toFinset :=
      ⟨hsub, fun hsup => hnotx (hsup hmemx)⟩
    have := Finset.card_lt_card hss
    omega
  · intro hall
    have hperm : (users.filter (fun u => u ∈ ids)).Perm ids.dedup := by
      rw [List.perm_ext_iff_of_nodup (h.filter _) (List.nodup_dedup ids)]
      intro a
      simp only [List.mem_filter, decide_eq_true_eq, List.mem_dedup]
      exact ⟨fun hmem => hmem.2, fun hmem => ⟨hall a hmem, hmem⟩⟩
    exact hperm.length_eq

/-- Membership in the accumulated `blocked_users` set. -/
theorem mem_blockedUsers {tasks : List Task} {removed : List Nat} {u : Nat} :
    u ∈ blockedUsers tasks removed ↔
      ∃ t ∈ tasks, (optMem t.assigneeId removed ∨ optMem t.reviewerId removed) ∧
        (t.assigneeId = some u ∨ t.reviewerId = some u) := by
  unfold blockedUsers
  simp only [List.mem_dedup, List.mem_filterMap, List.mem_flatMap, id_eq]
  constructor
  · rintro ⟨o, ⟨t, ht, hmem⟩, rfl⟩
    by_cases hg : optMem t.assigneeId removed ∨ optMem t.reviewerId removed
    · rw [if_pos hg] at hmem
      simp only [List.mem_cons, List.mem_singleton, List.not_mem_nil, or_false] at hmem
      exact ⟨t, ht, hg, by tauto⟩
    · rw [if_neg hg] at hmem
      simp at hmem
  · rintro ⟨t, ht, hg, hcase⟩
    refine ⟨some u, ⟨t, ht, ?_⟩, rfl⟩
    rw [if_pos hg]
    rcases hcase with hc | hc <;> simp [hc]

/-- The blocked-users accumulation is empty exactly when no task of the
board references a removed member as assignee or reviewer. -/
theorem blockedUsers_eq_nil_iff {tasks : List Task} {removed : List Nat} :
    blockedUsers tasks removed = [] ↔
      ∀ t ∈ tasks, ¬ optMem t.assigneeId removed ∧ ¬ optMem t.reviewerId removed := by
  rw [List.eq_nil_iff_forall_not_mem]
  constructor
  · intro h t ht
    constructor
    · intro hopt
      match ha : t.assigneeId with
      | none => exact absurd hopt (by rw [ha]; exact fun hx => hx)
      | some a =>
        exact h a (mem_blockedUsers.mpr ⟨t, ht, Or.inl (by rw [ha] at hopt; exact ha ▸ hopt),
          Or.inl ha⟩)
    · intro hopt
      match ha : t.reviewerId with
      | none => exact absurd hopt (by rw [ha]; exact fun hx => hx)
      | some r =>
        exact h r (mem_blockedUsers.mpr ⟨t, ht, Or.inr (by rw [ha] at hopt; exact ha ▸ hopt),
          Or.inr ha⟩)
  · intro h u hu
    obtain ⟨t, ht, hg, _⟩ := mem_blockedUsers.mp hu
    rcases hg with hg | hg
    · exact (h t ht).1 hg
    · exact (h t ht).2 hg

theorem nodup_map_filter {α β : Type} (f : α → β) (q : α → Bool) {l : List α}
    (h : (l.map f).Nodup) : ((l.filter q).map f).Nodup :=
  ((List.filter_sublist l).map f).nodup h

/-! ### Invariant preservation, one lemma per service operation -/

theorem boardCreate_inv {st st' : State} {actor : Nat} {title : String} {ms : List Nat}
    {newId : Nat} {bd : Board} (hinv : Inv st) (hactor : actor ∈ st.users)
    (hfresh : newId ∉ st.boards.map Board.id)
    (h : boardCreate st actor title ms newId = .ok (st', bd)) : Inv st' := by
  obtain ⟨hnd, h0, hbid, htid, hcid, hbok, htok⟩ := hinv
  unfold boardCreate at h
  split at h
  · simp at h
  · simp only [Except.ok.injEq, Prod.mk.injEq] at h
    obtain ⟨hst, -⟩ := h
    subst hst
    refine ⟨hnd, h0, ?_, htid, hcid, ?_, ?_⟩
    · simp only [List.map_append, List.map_cons, List.map_nil]
      rw [List.nodup_append]
      refine ⟨hbid, List.nodup_singleton _, ?_⟩
      intro a ha hb
      simp only [List.mem_singleton] at hb
      subst hb
      exact hfresh ha
    · intro b hb
      rw [List.mem_append] at hb
      rcases hb with hb | hb
      · exact hbok b hb
      · simp only [List.mem_singleton] at hb
        subst hb
        refine ⟨hactor, ?_, ?_⟩
        · simp only [List.mem_filter, decide_eq_true_eq]
          refine ⟨hactor, ?_⟩
          split
          · assumption
          · simp
        · intro m hm
          simp only [List.mem_filter, decide_eq_true_eq] at hm
          exact hm.1
    · intro t ht
      obtain ⟨b, hfind, ha, hr⟩ := htok t ht
      exact ⟨b, find?_append_some hfind, ha, hr⟩

theorem boardDelete_inv {st st' : State} {actor bid : Nat} (hinv : Inv st)
    (h : boardDelete st actor bid = .ok st') : Inv st' := by
  obtain ⟨hnd, h0, hbids, htid, hcid, hbok, htok⟩ := hinv
  unfold boardDelete at h
  split at h
  · simp at h
  · split at h
    · simp only [Except.ok.injEq] at h
      subst h
      refine ⟨hnd, h0, nodup_map_filter _ _ hbids, nodup_map_filter _ _ htid,
        nodup_map_filter _ _ hcid, ?_, ?_⟩
      · intro b hb
        exact hbok b (List.mem_of_mem_filter hb)
      · intro t ht
        simp only [List.mem_filter, bne_iff_ne, ne_eq, decide_eq_true_eq] at ht
        obtain ⟨htmem, htb⟩ := ht
        obtain ⟨b, hfind, ha, hr⟩ := htok t htmem
        refine ⟨b, ?_, ha, hr⟩
        refine find?_filter_some ?_ hfind
        intro x hx
        simp only [beq_iff_eq] at hx
        simp only [bne_iff_ne, ne_eq, decide_eq_true_eq]
        rw [hx]
        exact htb
    · simp at h

theorem taskDelete_inv {st st' : State} {actor tid : Nat} (hinv : Inv st)
    (h : taskDelete st actor tid = .ok st') : Inv st' := by
  obtain ⟨hnd, h0, hbids, htid, hcid, hbok, htok⟩ := hinv
  unfold taskDelete at h
  split at h
  · simp at h
  · split at h
    · simp at h
    · split at h
      · split at h
        · simp only [Except.ok.injEq] at h
          subst h
          refine ⟨hnd, h0, hbids, nodup_map_filter _ _ htid, nodup_map_filter _ _ hcid,
            hbok, ?_⟩
          intro t ht
          exact htok t (List.mem_of_mem_filter ht)
        · simp at h
      · simp at h

theorem commentCreate_inv {st st' : State} {actor taskPk : Nat} {pb : Option Nat}
    {content : String} {newId : Nat} {c : Comment} (hinv : Inv st)
    (hfresh : newId ∉ st.comments.map Comment.id)
    (h : commentCreate st actor taskPk pb content newId = .ok (st', c)) : Inv st' := by
  obtain ⟨hnd, h0, hbids, htid, hcid, hbok, htok⟩ := hinv
  unfold commentCreate at h
  simp only at h
  split at h
  · simp at h
  · split at h
    · split at h
      · simp at h
      · simp only [Except.ok.injEq, Prod.mk.injEq] at h
        obtain ⟨hst, -⟩ := h
        subst hst
        refine ⟨hnd, h0, hbids, htid, ?_, hbok, htok⟩
        simp only [List.map_append, List.map_cons, List.map_nil]
        rw [List.nodup_append]
        refine ⟨hcid, List.nodup_singleton _, ?_⟩
        intro a ha hb
        simp only [List.mem_singleton] at hb
        subst hb
        exact hfresh ha
    · simp at h

theorem commentDelete_inv {st st' : State} {actor taskPk commentPk : Nat} (hinv : Inv st)
    (h : commentDelete st actor taskPk commentPk = .ok st') : Inv st' := by
  obtain ⟨hnd, h0, hbids, htid, hcid, hbok, htok⟩ := hinv
  unfold commentDelete at h
  split at h
  · simp at h
  · split at h
    · simp only [Except.ok.injEq] at h
      subst h
      exact ⟨hnd, h0, hbids, htid, nodup_map_filter _ _ hcid, hbok, htok⟩
    · simp at h

theorem memberCheck_mem {board : Board} {o : Option Nat} {a : Nat}
    (hne : ¬ memberCheckFails board o) (ha : pyTruthy o = some a) :
    a ∈ board.memberIds := by
  unfold memberCheckFails at hne
  rw [ha] at hne
  exact not_not.mp hne

theorem findBoard_id {st : State} {bid : Nat} {board : Board}
    (h : st.findBoard bid = some board) : board.id = bid := by
  unfold State.findBoard at h
  simpa using List.find?_some h

theorem findBoard_mem {st : State} {bid : Nat} {board : Board}
    (h : st.findBoard bid = some board) : board ∈ st.boards := by
  unfold State.findBoard at h
  exact List.mem_of_find?_eq_some h

theorem findTask_id {st : State} {tid : Nat} {task : Task}
    (h : st.findTask tid = some task) : task.id = tid := by
  unfold State.findTask at h
  simpa using List.find?_some h

theorem findTask_mem {st : State} {tid : Nat} {task : Task}
    (h : st.findTask tid = some task) : task ∈ st.tasks := by
  unfold State.findTask at h
  exact List.mem_of_find?_eq_some h

theorem taskCreate_inv {st st' : State} {actor : Nat} {bf : Option Nat}
    {title description : String} {status priority : Option String}
    {aid rid : Option Nat} {dd : Option String} {newId : Nat} {tk : Task}
    (hinv : Inv st) (hfresh : newId ∉ st.tasks.map Task.id)
    (h : taskCreate st actor bf title description status priority aid rid dd newId
      = .ok (st', tk)) : Inv st' := by
  obtain ⟨hnd, h0, hbids, htid, hcid, hbok, htok⟩ := hinv
  unfold taskCreate at h
  split at h
  · simp at h
  · rename_i bid hbf
    split at h
    · simp at h
    · rename_i board hfindb
      split at h
      · split at h
        · simp at h
        · split at h
          · simp at h
          · split at h
            · simp at h
            · split at h
              · simp at h
              · rename_i hamem
                split at h
                · simp at h
                · rename_i hrmem
                  simp only [Except.ok.injEq, Prod.mk.injEq] at h
                  obtain ⟨hst, -⟩ := h
                  subst hst
                  refine ⟨hnd, h0, hbids, ?_, hcid, hbok, ?_⟩
                  · simp only [List.map_append, List.map_cons, List.map_nil]
                    rw [List.nodup_append]
                    refine ⟨htid, List.nodup_singleton _, ?_⟩
                    intro a ha hb
                    simp only [List.mem_singleton] at hb
                    subst hb
                    exact hfresh ha
                  · intro t ht
                    rw [List.mem_append] at ht
                    rcases ht with ht | ht
                    · exact htok t ht
                    · simp only [List.mem_singleton] at ht
                      subst ht
                      refine ⟨board, ?_, ?_, ?_⟩
                      · have hb : board.id = bid := findBoard_id hfindb
                        unfold State.findBoard at hfindb
                        simpa [hb] using hfindb
                      · intro a ha
                        exact memberCheck_mem hamem ha
                      · intro r hr
                        exact memberCheck_mem hrmem hr
      · simp at h

theorem tasks_replace_ids (l : List Task) (pk : Nat) (t' : Task) (hid : t'.id = pk) :
    (l.map fun t => if t.id == pk then t' else t).map Task.id = l.map Task.id := by
  rw [List.map_map]
  apply List.map_congr_left
  intro t _
  simp only [Function.comp_apply]
  split
  · rename_i hteq
    simp only [beq_iff_eq] at hteq
    rw [hid, hteq]
  · rfl

theorem taskUpdate_inv {st st' : State} {actor pk : Nat} {patch : TaskPatch} {tk : Task}
    (hinv : Inv st) (h : taskUpdate st actor pk patch = .ok (st', tk)) : Inv st' := by
  obtain ⟨hnd, h0, hbids, htid, hcid, hbok, htok⟩ := hinv
  unfold taskUpdate at h
  split at h
  · simp at h
  · rename_i task hfindt
    split at h
    · simp at h
    · rename_i board hfindb
      split at h
      · split at h
        · split at h <;> simp at h
        · split at h
          · simp at h
          · split at h
            · simp at h
            · split at h
              · simp at h
              · split at h
                · simp at h
                · rename_i hamem
                  split at h
                  · simp at h
                  · rename_i hrmem
                    split at h
                    · rename_i hfk
                      simp only [Except.ok.injEq, Prod.mk.injEq] at h
                      obtain ⟨hst, -⟩ := h
                      subst hst
                      have htaskpk : task.id = pk := findTask_id hfindt
                      have htaskmem : task ∈ st.tasks := findTask_mem hfindt
                      have hrepl : ∀ t' : Task, t'.id = pk →
                          ((st.tasks.map fun t => if t.id == pk then t' else t).map
                            Task.id).Nodup := by
                        intro t' hid
                        rw [tasks_replace_ids _ _ _ hid]
                        exact htid
                      refine ⟨hnd, h0, hbids, ?_, hcid, hbok, ?_⟩
                      · exact hrepl _ htaskpk
                      · intro x hx
                        simp only [List.mem_map] at hx
                        obtain ⟨t, ht, rfl⟩ := hx
                        by_cases hteq : (t.id == pk) = true
                        · rw [if_pos hteq]
                          simp only [beq_iff_eq] at hteq
                          refine ⟨board, hfindb, ?_, ?_⟩
                          · intro a ha
                            match hpa : patch.assigneeId with
                            | none =>
                              rw [hpa] at ha
                              simp only [Option.getD_none] at ha
                              obtain ⟨bt, hfindbt, hat, -⟩ := htok task htaskmem
                              have hbt : bt = board := by
                                have hfb := hfindb
                                unfold State.findBoard at hfb
                                rw [hfindbt] at hfb
                                exact Option.some.inj hfb
                              rw [← hbt]
                              exact hat a ha
                            | some v =>
                              rw [hpa] at ha
                              simp only [Option.getD_some] at ha
                              subst ha
                              by_cases ha0 : a = 0
                              · exfalso
                                obtain ⟨hfka, -⟩ := hfk
                                rw [hpa] at hfka
                                simp only [Option.getD_some] at hfka
                                rw [ha0] at hfka
                                exact h0 hfka
                              · refine memberCheck_mem hamem ?_
                                rw [hpa]
                                simp [pyTruthy, ha0]
                          · intro r hr
                            match hpr : patch.reviewerId with
                            | none =>
                              rw [hpr] at hr
                              simp only [Option.getD_none] at hr
                              obtain ⟨bt, hfindbt, -, hrt⟩ := htok task htaskmem
                              have hbt : bt = board := by
                                have hfb := hfindb
                                unfold State.findBoard at hfb
                                rw [hfindbt] at hfb
                                exact Option.some.inj hfb
                              rw [← hbt]
                              exact hrt r hr
                            | some v =>
                              rw [hpr] at hr
                              simp only [Option.getD_some] at hr
                              subst hr
                              by_cases hr0 : r = 0
                              · exfalso
                                obtain ⟨-, hfkr⟩ := hfk
                                rw [hpr] at hfkr
                                simp only [Option.getD_some] at hfkr
                                rw [hr0] at hfkr
                                exact h0 hfkr
                              · refine memberCheck_mem hrmem ?_
                                rw [hpr]
                                simp [pyTruthy, hr0]
                        · rw [if_neg hteq]
                          exact htok t ht
                    · simp at h
      · simp at h

theorem boards_map_ids (l : List Board) (f : Board → Board) (hf : ∀ b, (f b).id = b.id) :
    (l.map f).map Board.id = l.map Board.id := by
  rw [List.map_map]
  apply List.map_congr_left
  intro b _
  exact hf b

theorem boardUpdate_inv {st st' : State} {actor bid : Nat} {newTitle : Option String}
    {ms : Option (List Nat)} (hinv : Inv st)
    (h : boardUpdate st actor bid newTitle ms = .ok st') : Inv st' := by
  obtain ⟨hnd, h0, hbids, htid, hcid, hbok, htok⟩ := hinv
  unfold boardUpdate at h
  split at h
  · simp at h
  · rename_i board hfindb
    have hbmem : board ∈ st.boards := findBoard_mem hfindb
    have hbid : board.id = bid := findBoard_id hfindb
    split at h
    · split at h
      · -- title-only update (`members` not supplied)
        simp only [Except.ok.injEq] at h
        subst h
        have hf : ∀ b : Board,
            ((fun b : Board => if b.id == bid then { b with title := newTitle.getD b.title }
              else b) b).id = b.id := by
          intro b
          show (if (b.id == bid) = true then { b with title := newTitle.getD b.title }
            else b).id = b.id
          split <;> rfl
        refine ⟨hnd, h0, ?_, htid, hcid, ?_, ?_⟩
        · rw [boards_map_ids _ _ hf]
          exact hbids
        · intro b' hb'
          simp only [List.mem_map] at hb'
          obtain ⟨b, hb, rfl⟩ := hb'
          by_cases hbeq : (b.id == bid) = true
          · rw [if_pos hbeq]
            exact hbok b hb
          · rw [if_neg hbeq]
            exact hbok b hb
        · intro t ht
          obtain ⟨bt, hfindbt, hat, hrt⟩ := htok t ht
          have hfind' := find?_map_id_pred st.boards
            (fun b => if b.id == bid then { b with title := newTitle.getD b.title } else b)
            t.boardId hf
          rw [hfindbt] at hfind'
          refine ⟨_, hfind', ?_, ?_⟩
          · intro a ha
            show a ∈ (if (bt.id == bid) = true then
              { bt with title := newTitle.getD bt.title } else bt).memberIds
            split
            · exact hat a ha
            · exact hat a ha
          · intro r hr
            show r ∈ (if (bt.id == bid) = true then
              { bt with title := newTitle.getD bt.title } else bt).memberIds
            split
            · exact hrt r hr
            · exact hrt r hr
      · -- member replacement branch
        rename_i msl
        split at h
        · simp at h
        · split at h
          · simp at h
          · rename_i hblocked
            have hblockednil :
                blockedUsers (st.tasks.filter fun t => t.boardId == board.id)
                  (removedOf board msl) = [] := not_not.mp hblocked
            simp only [Except.ok.injEq] at h
            subst h
            have hf : ∀ b : Board,
                ((fun b : Board => if b.id == bid then
                  { b with
                    title := newTitle.getD b.title,
                    memberIds := st.users.filter (fun u => u ∈ mkValue board msl) }
                  else b) b).id = b.id := by
              intro b
              show (if (b.id == bid) = true then
                { b with
                  title := newTitle.getD b.title,
                  memberIds := st.users.filter (fun u => u ∈ mkValue board msl) }
                else b).id = b.id
              split <;> rfl
            have hownermem : board.ownerId ∈ mkValue board msl := by
              unfold mkValue
              split
              · simp
              · rename_i hcond
                push_neg at hcond
                by_cases h0' : board.ownerId = 0
                · exact absurd ((hbok board hbmem).1) (h0' ▸ h0)
                · exact not_not.mp (fun hno => hno (hcond h0'))
            refine ⟨hnd, h0, ?_, htid, hcid, ?_, ?_⟩
            · rw [boards_map_ids _ _ hf]
              exact hbids
            · intro b' hb'
              simp only [List.mem_map] at hb'
              obtain ⟨b, hb, rfl⟩ := hb'
              by_cases hbeq : (b.id == bid) = true
              · rw [if_pos hbeq]
                simp only [beq_iff_eq] at hbeq
                have hbb : b = board :=
                  List.inj_on_of_nodup_map hbids hb hbmem (by rw [hbeq, hbid])
                subst hbb
                refine ⟨(hbok b hb).1, ?_, ?_⟩
                · simp only [List.mem_filter, decide_eq_true_eq]
                  exact ⟨(hbok b hb).1, hownermem⟩
                · intro m hm
                  simp only [List.mem_filter, decide_eq_true_eq] at hm
                  exact hm.1
              · rw [if_neg hbeq]
                exact hbok b hb
            · intro t ht
              obtain ⟨bt, hfindbt, hat, hrt⟩ := htok t ht
              have hbtid : bt.id = t.boardId := by simpa using List.find?_some hfindbt
              have hbtmem : bt ∈ st.boards := List.mem_of_find?_eq_some hfindbt
              have hfind' := find?_map_id_pred st.boards
                (fun b => if b.id == bid then
                  { b with
                    title := newTitle.getD b.title,
                    memberIds := st.users.filter (fun u => u ∈ mkValue board msl) }
                  else b)
                t.boardId hf
              rw [hfindbt] at hfind'
              refine ⟨_, hfind', ?_, ?_⟩
              · intro a ha
                show a ∈ (if (bt.id == bid) = true then
                  { bt with
                    title := newTitle.getD bt.title,
                    memberIds := st.users.filter (fun u => u ∈ mkValue board msl) }
                  else bt).memberIds
                split
                · rename_i hbeq
                  simp only [beq_iff_eq] at hbeq
                  have hbb : bt = board :=
                    List.inj_on_of_nodup_map hbids hbtmem hbmem (by rw [hbeq, hbid])
                  have htf : t ∈ st.tasks.filter fun x => x.boardId == board.id := by
                    simp only [List.mem_filter, beq_iff_eq]
                    exact ⟨ht, by rw [← hbtid, hbb]⟩
                  have hnoa := (blockedUsers_eq_nil_iff.mp hblockednil t htf).1
                  have hamem : a ∈ board.memberIds := by
                    rw [← hbb]
                    exact hat a ha
                  have hnotrem : a ∉ removedOf board msl := by
                    intro hrem
                    apply hnoa
                    rw [ha]
                    exact hrem
                  have haval : a ∈ mkValue board msl := by
                    by_contra hnv
                    apply hnotrem
                    unfold removedOf
                    simp only [List.mem_filter, decide_eq_true_eq]
                    exact ⟨hamem, hnv⟩
                  simp only [List.mem_filter, decide_eq_true_eq]
                  exact ⟨(hbok board hbmem).2.2 a hamem, haval⟩
                · exact hat a ha
              · intro r hr
                show r ∈ (if (bt.id == bid) = true then
                  { bt with
                    title := newTitle.getD bt.title,
                    memberIds := st.users.filter (fun u => u ∈ mkValue board msl) }
                  else bt).memberIds
                split
                · rename_i hbeq
                  simp only [beq_iff_eq] at hbeq
                  have hbb : bt = board :=
                    List.inj_on_of_nodup_map hbids hbtmem hbmem (by rw [hbeq, hbid])
                  have htf : t ∈ st.tasks.filter fun x => x.boardId == board.id := by
                    simp only [List.mem_filter, beq_iff_eq]
                    exact ⟨ht, by rw [← hbtid, hbb]⟩
                  have hnor := (blockedUsers_eq_nil_iff.mp hblockednil t htf).2
                  have hrmem : r ∈ board.memberIds := by
                    rw [← hbb]
                    exact hrt r hr
                  have hnotrem : r ∉ removedOf board msl := by
                    intro hrem
                    apply hnor
                    rw [hr]
                    exact hrem
                  have hrval : r ∈ mkValue board msl := by
                    by_contra hnv
                    apply hnotrem
                    unfold removedOf
                    simp only [List.mem_filter, decide_eq_true_eq]
                    exact ⟨hrmem, hnv⟩
                  simp only [List.mem_filter, decide_eq_true_eq]
                  exact ⟨(hbok board hbmem).2.2 r hrmem, hrval⟩
                · exact hrt r hr
    · simp at h

theorem inv_step {st st' : State} (hinv : Inv st) (h : Step st st') : Inv st' := by
  cases h with
  | stepBoardCreate actor title ms newId b hactor hfresh hop =>
      exact boardCreate_inv hinv hactor hfresh hop
  | stepBoardUpdate actor bid newTitle ms hactor hop =>
      exact boardUpdate_inv hinv hop
  | stepBoardDelete actor bid hactor hop =>
      exact boardDelete_inv hinv hop
  | stepTaskCreate actor bf title description status priority aid rid dd newId t
      hactor hfresh hop =>
      exact taskCreate_inv hinv hfresh hop
  | stepTaskUpdate actor pk patch t hactor hop =>
      exact taskUpdate_inv hinv hop
  | stepTaskDelete actor tid hactor hop =>
      exact taskDelete_inv hinv hop
  | stepCommentCreate actor taskPk pb content newId c hactor hfresh hop =>
      exact commentCreate_inv hinv hfresh hop
  | stepCommentDelete actor taskPk commentPk hactor hop =>
      exact commentDelete_inv hinv hop

theorem reachable_inv {st : State} (h : Reachable st) : Inv st := by
  induction h with
  | init users hnodup hzero =>
      exact ⟨hnodup, hzero, by simp, by simp, by simp, by simp, by simp⟩
  | step st st' hreach hstep ih =>
      exact inv_step ih hstep

/-! ### The example states are reachable by replaying service operations -/

theorem exS2_reachable : Reachable exS2 :=
  Reachable.step exS1 exS2
    (Reachable.step exS0 exS1
      (Reachable.init [1, 2] (by decide) (by decide))
      (Step.stepBoardCreate exS0 exS1 1 "Board" [2] 1 exBoard (by decide) (by decide) rfl))
    (Step.stepTaskCreate exS1 exS2 1 (some 1) "Task" "" none none (some 2) none none 1 exTask
      (by decide) (by decide) rfl)

theorem exSt3_reachable : Reachable exSt3 :=
  Reachable.step _ _
    (Reachable.step _ _
      (Reachable.step _ _
        (Reachable.init [1, 2] (by decide) (by decide))
        (Step.stepBoardCreate exS0 ⟨[1, 2], [exBoardA], [], []⟩ 1 "A" [] 1 exBoardA
          (by decide) (by decide) rfl))
      (Step.stepBoardCreate ⟨[1, 2], [exBoardA], [], []⟩ ⟨[1, 2], [exBoardA, exBoardB], [], []⟩
        2 "B" [] 2 exBoardB (by decide) (by decide) rfl))
    (Step.stepTaskCreate ⟨[1, 2], [exBoardA, exBoardB], [], []⟩ exSt3 1 (some 1) "T" ""
      none none none none none 1 exTask3 (by decide) (by decide) rfl)

theorem exSt4_reachable : Reachable exSt4 :=
  Reachable.step _ _
    (Reachable.step _ _
      (Reachable.step _ _
        (Reachable.init [1, 2, 3] (by decide) (by decide))
        (Step.stepBoardCreate ⟨[1, 2, 3], [], [], []⟩ exS41 1 "B" [2, 3] 1 exBoard4a
          (by decide) (by decide) rfl))
      (Step.stepTaskCreate exS41 exS42 3 (some 1) "T" "" none none none none none 1 exTask4
        (by decide) (by decide) rfl))
    (Step.stepBoardUpdate exS42 exSt4 1 1 none (some [1, 2]) (by decide) rfl)

theorem exSt7_reachable : Reachable exSt7 :=
  Reachable.step _ _
    (Reachable.step _ _
      (Reachable.step _ _
        (Reachable.step _ _
          (Reachable.step _ _
            (Reachable.init [1, 2] (by decide) (by decide))
            (Step.stepBoardCreate exS0 exS71 1 "A" [2] 1 exBoard7A (by decide) (by decide)
              rfl))
          (Step.stepBoardCreate exS71 exS72 2 "B" [] 2 exBoard7B (by decide) (by decide)
            rfl))
        (Step.stepTaskCreate exS72 exS73 1 (some 1) "T1" "" none none none none none 1
          exTask7a (by decide) (by decide) rfl))
      (Step.stepTaskCreate exS73 exS74 2 (some 2) "T3" "" none none none none none 3
        exTask7b (by decide) (by decide) rfl))
    (Step.stepCommentCreate exS74 exSt7 1 1 none "c" 3 exComment7 (by decide) (by decide)
      rfl)

/-! ### Claim theorems -/

/-- C1: in every state reachable through the service operations, every
Task whose assignee or reviewer is set has that user as a current member
of the Task's board. -/
theorem task_assignee_reviewer_are_members (st : State) (hr : Reachable st) :
    ∀ t ∈ st.tasks, ∃ b, st.findBoard t.boardId = some b ∧
      (∀ a, t.assigneeId = some a → a ∈ b.memberIds) ∧
      (∀ r, t.reviewerId = some r → r ∈ b.memberIds) :=
  fun t ht => (reachable_inv hr).2.2.2.2.2.2 t ht

/-- Witness for C1: in the reachable state `exS2`, task 1 has assignee 2,
a member of board 1. -/
theorem task_assignee_reviewer_are_members_witness :
    ∃ b, exS2.findBoard 1 = some b ∧ 2 ∈ b.memberIds := by
  obtain ⟨b, hfind, ha, -⟩ :=
    task_assignee_reviewer_are_members exS2 exS2_reachable exTask (by decide)
  exact ⟨b, hfind, ha 2 rfl⟩

/-- C2: in every state reachable through the service operations —
immediately after board creation and after every board update — every
board's owner is an element of its member set. -/
theorem board_owner_is_member (st : State) (hr : Reachable st) :
    ∀ b ∈ st.boards, b.ownerId ∈ b.memberIds :=
  fun b hb => ((reachable_inv hr).2.2.2.2.2.1 b hb).2.1

/-- Witness for C2 at the reachable state `exS2`. -/
theorem board_owner_is_member_witness : exBoard.ownerId ∈ exBoard.memberIds :=
  board_owner_is_member exS2 exS2_reachable exBoard (by decide)

/-- C3 counterexample: user 2 is neither owner nor member of task 1's
board, yet creating a comment on task 1 succeeds when the request payload
names board 2 (a board user 2 owns): `IsTaskBoardMemberOrOwner` checks the
payload's `board` field instead of the task's board. -/
theorem comment_create_board_payload_bypass :
    exSt3.findTask 1 = some exTask3 ∧ exTask3.boardId = 1 ∧
    exSt3.findBoard 1 = some exBoardA ∧ exBoardA.ownerId ≠ 2 ∧ 2 ∉ exBoardA.memberIds ∧
    commentCreate exSt3 2 1 (some 2) "hi" 1 =
      .ok ({ exSt3 with comments := [⟨1, 1, 2, "hi"⟩] }, ⟨1, 1, 2, "hi"⟩) :=
  ⟨rfl, rfl, rfl, by decide, by decide, rfl⟩

/-- C3 amended: comment creation is permitted iff the actor is owner or
member of the board the permission check resolves — the task's board when
the payload has no truthy `board` field, but the payload's board when one
is supplied. -/
theorem comment_create_permission (st : State) (actor taskPk pb : Nat) (content : String)
    (newId : Nat) (task : Task) (board board2 : Board)
    (ht : st.findTask taskPk = some task) (hb : st.findBoard task.boardId = some board)
    (hb2 : st.findBoard pb = some board2) (hpb : pb ≠ 0) :
    ((commentCreate st actor taskPk none content newId).isOk = true ↔
      (board.ownerId = actor ∨ actor ∈ board.memberIds)) ∧
    ((commentCreate st actor taskPk (some pb) content newId).isOk = true ↔
      (board2.ownerId = actor ∨ actor ∈ board2.memberIds)) := by
  constructor
  · have hcc : commentCreate st actor taskPk none content newId =
        (if board.ownerId = actor ∨ actor ∈ board.memberIds then
          .ok ({ st with comments := st.comments ++ [⟨newId, task.id, actor, content⟩] },
            (⟨newId, task.id, actor, content⟩ : Comment))
        else .error .forbidden) := by
      unfold commentCreate taskBoardOf
      simp only [pyTruthy, ht, hb]
    rw [hcc]
    by_cases hp : board.ownerId = actor ∨ actor ∈ board.memberIds
    · rw [if_pos hp]
      simp [Except.isOk, Except.toBool, hp]
    · rw [if_neg hp]
      simp [Except.isOk, Except.toBool, hp]
  · have hcc : commentCreate st actor taskPk (some pb) content newId =
        (if board2.ownerId = actor ∨ actor ∈ board2.memberIds then
          .ok ({ st with comments := st.comments ++ [⟨newId, task.id, actor, content⟩] },
            (⟨newId, task.id, actor, content⟩ : Comment))
        else .error .forbidden) := by
      unfold commentCreate
      simp only [pyTruthy, if_neg hpb, hb2, ht]
    rw [hcc]
    by_cases hp : board2.ownerId = actor ∨ actor ∈ board2.memberIds
    · rw [if_pos hp]
      simp [Except.isOk, Except.toBool, hp]
    · rw [if_neg hp]
      simp [Except.isOk, Except.toBool, hp]

/-- Witness for the C3 amended theorem at `exSt3`: with no payload board,
user 2 is gated by board A (the task's board); with payload board 2, by
board B. -/
theorem comment_create_permission_witness :
    ((commentCreate exSt3 2 1 none "x" 1).isOk = true ↔
      (exBoardA.ownerId = 2 ∨ 2 ∈ exBoardA.memberIds)) ∧
    ((commentCreate exSt3 2 1 (some 2) "x" 1).isOk = true ↔
      (exBoardB.ownerId = 2 ∨ 2 ∈ exBoardB.memberIds)) :=
  comment_create_permission exSt3 2 1 2 "x" 1 exTask3 exBoardA exBoardB rfl rfl rfl
    (by decide)

/-- C4 counterexample: task 1 was created by user 3, who has since been
removed from the board's member set; the claim entitles the creator to
delete regardless of membership, but the request-level permission check
(owner-or-member) denies them. -/
theorem task_delete_creator_not_member_denied :
    exSt4.findTask 1 = some exTask4 ∧ exTask4.createdById = 3 ∧
    exSt4.findBoard 1 = some exBoard4 ∧ exBoard4.ownerId ≠ 3 ∧ 3 ∉ exBoard4.memberIds ∧
    taskDelete exSt4 3 1 = .error .forbidden :=
  ⟨rfl, rfl, rfl, by decide, by decide, rfl⟩

/-- C4 amended: deleting an existing task is permitted iff the actor is
the board owner, or is the task's creator *and* still a current member of
the board (a creator who is no longer owner or member is denied). -/
theorem task_delete_permission (st : State) (actor tid : Nat) (task : Task) (board : Board)
    (ht : st.findTask tid = some task) (hb : st.findBoard task.boardId = some board) :
    (taskDelete st actor tid).isOk = true ↔
      (board.ownerId = actor ∨ (actor ∈ board.memberIds ∧ task.createdById = actor)) := by
  have hcc : taskDelete st actor tid =
      (if board.ownerId = actor ∨ actor ∈ board.memberIds then
        if board.ownerId = actor ∨ task.createdById = actor then
          .ok { st with
            tasks := st.tasks.filter (fun t => t.id != tid),
            comments := st.comments.filter (fun c => c.taskId != tid) }
        else .error .forbidden
      else .error .forbidden) := by
    unfold taskDelete
    simp only [ht, hb]
  rw [hcc]
  by_cases h1 : board.ownerId = actor ∨ actor ∈ board.memberIds
  · rw [if_pos h1]
    by_cases h2 : board.ownerId = actor ∨ task.createdById = actor
    · rw [if_pos h2]
      simp only [Except.isOk, Except.toBool, true_iff]
      rcases h2 with h | h
      · exact Or.inl h
      · rcases h1 with h1' | h1'
        · exact Or.inl h1'
        · exact Or.inr ⟨h1', h⟩
    · rw [if_neg h2]
      push_neg at h2
      simp only [Except.isOk, Except.toBool, Bool.false_eq_true, false_iff]
      rintro (h | ⟨-, hcr⟩)
      · exact h2.1 h
      · exact h2.2 hcr
  · rw [if_neg h1]
    push_neg at h1
    simp only [Except.isOk, Except.toBool, Bool.false_eq_true, false_iff]
    rintro (h | ⟨hm, -⟩)
    · exact h1.1 h
    · exact h1.2 hm

/-- Witness for the C4 amended theorem: the board owner may delete. -/
theorem task_delete_permission_witness : (taskDelete exSt4 1 1).isOk = true :=
  (task_delete_permission exSt4 1 1 exTask4 exBoard4 rfl rfl).mpr (Or.inl rfl)

/-- C5: deleting an existing comment (resolved by its id and the route's
task id) is permitted exactly when the actor is the comment's author; in
particular a board owner who is not the author is denied. -/
theorem comment_delete_author_only (st : State) (actor taskPk commentPk : Nat) (c : Comment)
    (hc : st.findCommentPair taskPk commentPk = some c) :
    (commentDelete st actor taskPk commentPk).isOk = true ↔ c.authorId = actor := by
  unfold commentDelete
  simp only [hc]
  by_cases h : c.authorId = actor
  · rw [if_pos h]
    simp [Except.isOk, Except.toBool, h]
  · rw [if_neg h]
    simp [Except.isOk, Except.toBool, h]

/-- Witness for C5: the author of comment 3 may delete it. -/
theorem comment_delete_author_only_witness : (commentDelete exSt7 1 1 3).isOk = true :=
  (comment_delete_author_only exSt7 1 1 3 exComment7 rfl).mpr rfl

/-- C6: a board update whose new member list would remove a user who is
assignee or reviewer of a task of the board fails `validate_members`, so
the whole update is rejected (no new state is produced: the member set is
not replaced and the title — whatever was supplied — is not applied,
since DRF validation runs before `update()`). -/
theorem board_update_blocked_whole_update_rejected (st : State) (actor bid : Nat)
    (newTitle : Option String) (ms : List Nat) (board : Board) (t : Task)
    (hb : st.findBoard bid = some board)
    (hperm : board.ownerId = actor ∨ actor ∈ board.memberIds)
    (husers : usersCheck st.users (mkValue board ms))
    (ht : t ∈ st.tasks) (htb : t.boardId = board.id)
    (hrem : optMem t.assigneeId (removedOf board ms) ∨
      optMem t.reviewerId (removedOf board ms)) :
    boardUpdate st actor bid newTitle (some ms) =
      .error (.validationBlocked
        (blockedUsers (st.tasks.filter fun x => x.boardId == board.id)
          (removedOf board ms))) := by
  have hne : blockedUsers (st.tasks.filter fun x => x.boardId == board.id)
      (removedOf board ms) ≠ [] := by
    intro hnil
    have hmem : t ∈ st.tasks.filter fun x => x.boardId == board.id := by
      simp only [List.mem_filter, beq_iff_eq]
      exact ⟨ht, htb⟩
    have hn := blockedUsers_eq_nil_iff.mp hnil t hmem
    rcases hrem with hx | hx
    · exact hn.1 hx
    · exact hn.2 hx
  unfold boardUpdate
  simp only [hb]
  rw [if_pos hperm, if_neg (not_not.mpr husers), if_pos hne]

/-- Witness for C6: removing assignee 2 from board 1 (update also carries
a new title) is rejected with the blocked-user error. -/
theorem board_update_blocked_whole_update_rejected_witness :
    boardUpdate exS2 1 1 (some "NewTitle") (some [1]) =
      .error (.validationBlocked
        (blockedUsers (exS2.tasks.filter fun x => x.boardId == exBoard.id)
          (removedOf exBoard [1]))) :=
  board_update_blocked_whole_update_rejected exS2 1 1 (some "NewTitle") [1] exBoard exTask
    rfl (Or.inl rfl) (by decide) (by decide) rfl (Or.inl (by decide))

/-- C7: when a member update is blocked, the ids named are exactly the
union, over the board's tasks having assignee or reviewer in the removed
set, of both that task's assignee id and reviewer id, with null excluded
and nothing else. -/
theorem board_update_blocked_ids_exact (st : State) (actor bid : Nat)
    (newTitle : Option String) (ms : List Nat) (board : Board) (bs : List Nat)
    (hb : st.findBoard bid = some board)
    (hres : boardUpdate st actor bid newTitle (some ms) = .error (.validationBlocked bs)) :
    ∀ u, u ∈ bs ↔
      ∃ t ∈ st.tasks, t.boardId = board.id ∧
        (optMem t.assigneeId (removedOf board ms) ∨
          optMem t.reviewerId (removedOf board ms)) ∧
        (t.assigneeId = some u ∨ t.reviewerId = some u) := by
  unfold boardUpdate at hres
  simp only [hb] at hres
  split at hres
  · split at hres
    · simp at hres
    · split at hres
      · simp only [Except.error.injEq, Err.validationBlocked.injEq] at hres
        subst hres
        intro u
        rw [mem_blockedUsers]
        constructor
        · rintro ⟨t, htmem, hg, hcase⟩
          rw [List.mem_filter] at htmem
          refine ⟨t, htmem.1, ?_, hg, hcase⟩
          simpa using htmem.2
        · rintro ⟨t, htmem, htb, hg, hcase⟩
          refine ⟨t, ?_, hg, hcase⟩
          rw [List.mem_filter]
          refine ⟨htmem, ?_⟩
          simpa using htb
      · simp at hres
  · simp at hres

/-- Witness for C7 at the concrete blocked update of `exS2`. -/
theorem board_update_blocked_ids_exact_witness :
    2 ∈ ([2] : List Nat) ↔
      ∃ t ∈ exS2.tasks, t.boardId = exBoard.id ∧
        (optMem t.assigneeId (removedOf exBoard [1]) ∨
          optMem t.reviewerId (removedOf exBoard [1])) ∧
        (t.assigneeId = some 2 ∨ t.reviewerId = some 2) :=
  board_update_blocked_ids_exact exS2 1 1 none [1] exBoard [2] rfl rfl 2

/-- C8 counterexample: the failure for an unknown member id on board
creation is the same fixed generic string for different offending ids, so
it does not name the invalid ids. -/
theorem board_create_error_does_not_name_ids :
    boardCreate exS0 1 "B" [999] 1 =
      .error (.validation "Ein oder mehrere Benutzer existieren nicht") ∧
    boardCreate exS0 1 "B" [998] 1 = boardCreate exS0 1 "B" [999] 1 :=
  ⟨rfl, rfl⟩

/-- C8 amended: a board creation whose member-id list contains an id with
no matching user fails validation, but with a generic constant message
that does not enumerate the invalid ids. -/
theorem board_create_unknown_member_generic_error (st : State) (actor : Nat) (title : String)
    (ms : List Nat) (newId : Nat) (x : Nat) (hnd : st.users.Nodup)
    (hx : x ∈ ms) (hnx : x ∉ st.users) :
    boardCreate st actor title ms newId =
      .error (.validation "Ein oder mehrere Benutzer existieren nicht") := by
  have hchk : ¬ usersCheck st.users ms :=
    fun hcheck => hnx ((usersCheck_iff hnd).mp hcheck x hx)
  unfold boardCreate
  rw [if_pos hchk]

/-- Witness for the C8 amended theorem. -/
theorem board_create_unknown_member_generic_error_witness :
    boardCreate exS0 1 "B" [999] 1 =
      .error (.validation "Ein oder mehrere Benutzer existieren nicht") :=
  board_create_unknown_member_generic_error exS0 1 "B" [999] 1 999 (by decide) (by decide)
    (by decide)

/-- C9 (code bug): a task created without an explicit status is stored
with the model default status, the misspelled 'todo', which is not one of
the four declared STATUS_CHOICES. -/
theorem task_default_status_outside_choices :
    taskCreate exS1 1 (some 1) "T" "" none none none none none 1 =
      .ok ({ exS1 with tasks := [exTask9] }, exTask9) ∧
    exTask9.status = "todo" ∧ "todo" ∉ STATUS_CHOICES :=
  ⟨rfl, rfl, by decide⟩

/-- C10 counterexample: comment 3 exists, belongs to task 1, and the actor
is its author; the route names task 2.  The claim requires NotFound, but
the read is rejected as Forbidden: the permission check resolved the task
whose id equals the *comment* id (task 3, on a foreign board). -/
theorem comment_read_mismatch_not_notfound :
    exSt7.comments = [exComment7] ∧ exComment7.id = 3 ∧ exComment7.taskId = 1 ∧
    exComment7.authorId = 1 ∧
    commentRetrieve exSt7 1 2 3 = .error .forbidden :=
  ⟨rfl, rfl, rfl, rfl, rfl⟩

/-- C10 amended: comment *deletes* resolve by the (comment id, route task
id) pair, and a mismatch yields NotFound even for the author (the comment
is untouched: no state is produced).  Comment *reads* first run the
permission check against the task whose id equals the comment id, so a
mismatched read is Forbidden whenever such a task exists on a board the
actor does not belong to. -/
theorem comment_pair_resolution (st : State) (actor taskPk commentPk : Nat) (c : Comment)
    (hn : (st.comments.map Comment.id).Nodup) (hc : c ∈ st.comments)
    (hid : c.id = commentPk) (hmis : c.taskId ≠ taskPk) :
    commentDelete st actor taskPk commentPk =
      .error (.notFound "No Comment matches the given query.") ∧
    (∀ t b, st.findTask commentPk = some t → st.findBoard t.boardId = some b →
      ¬ (b.ownerId = actor ∨ actor ∈ b.memberIds) →
      commentRetrieve st actor taskPk commentPk = .error .forbidden) := by
  have hpair : st.findCommentPair taskPk commentPk = none := by
    unfold State.findCommentPair
    rw [List.find?_eq_none]
    intro x hx
    simp only [Bool.and_eq_true, beq_iff_eq, not_and]
    intro hxid hxtask
    have hxc : x = c := List.inj_on_of_nodup_map hn hx hc (by rw [hxid, hid])
    subst hxc
    exact hmis hxtask
  constructor
  · unfold commentDelete
    rw [hpair]
  · intro t b htf hbf hnot
    unfold commentRetrieve
    simp only [htf, hbf]
    rw [if_neg hnot]

/-- Witness for the C10 amended theorem at `exSt7`. -/
theorem comment_pair_resolution_witness :
    commentDelete exSt7 1 2 3 = .error (.notFound "No Comment matches the given query.") ∧
    commentRetrieve exSt7 1 2 3 = .error .forbidden := by
  have h := comment_pair_resolution exSt7 1 2 3 exComment7 (by decide) (by decide) rfl
    (by decide)
  exact ⟨h.1, h.2 exTask7b exBoard7B rfl rfl (by decide)⟩

end KanMind
